import Mathlib

/-!
Verification development for the bidirectional spreadsheet/table
synchronization engine.  The Lean definitions below are a shallow
embedding of the Python sources: sync_utils.py (column labeler, content
fingerprint, sync-state record), mysql_sync.py (sheet to table
reconciliation and its orchestrator) and sheets_sync.py (table to sheet
orchestrator).  External services (the spreadsheet API, the relational
store, the state file) are modelled by explicit environment records that
say which external call succeeds and what data it returns; a call that
the Python code leaves unwrapped by try/except is modelled as an
uncaught-exception outcome.
-/

namespace DataSync

/-- Cells of a spreadsheet grid are plain strings. -/
abbrev Cell := String

/-- Grid: ordered rows of cell strings, possibly ragged. -/
abbrev Grid := List (List Cell)

/-- Core loop of get_column_letter from sync_utils.py on the positive
part of its domain, driven by a fuel argument so that the recursion is
structural and evaluates by reduction.  The Python while loop runs
n, remainder = divmod(n - 1, 26); result = chr(65 + remainder) + result
until n reaches 0; unfolding the loop from the outside in gives this
recursion, in which the deepest iteration contributes the leading
letter.  A fuel of n itself always suffices because the argument
strictly decreases. -/
def colCoreAux : Nat → Nat → String
  | _, 0 => ""
  | 0, _ + 1 => ""
  | fuel + 1, n + 1 =>
      colCoreAux fuel (n / 26) ++ String.singleton (Char.ofNat (65 + n % 26))

/-- Core loop of get_column_letter with the canonical fuel. -/
def colCore (n : Nat) : String := colCoreAux n n

/-- get_column_letter from sync_utils.py (duplicated verbatim in
main.py).  Python integers can be negative; a non-positive argument
never enters the while loop, so the result is the empty string. -/
def get_column_letter (n : Int) : String := colCore n.toNat

/-- Modelled from the spec wording of section 4.1, for comparison with
the source function: the accumulated letters, least significant first,
with the same fuel device as colCoreAux. -/
def lsdLettersAux : Nat → Nat → List Char
  | _, 0 => []
  | 0, _ + 1 => []
  | fuel + 1, n + 1 => Char.ofNat (65 + n % 26) :: lsdLettersAux fuel (n / 26)

/-- Modelled from the spec wording of section 4.1, least significant
letters with the canonical fuel. -/
def lsdLetters (n : Nat) : List Char := lsdLettersAux n n

/-- Modelled from the spec wording of section 4.1: take letters least
significant first, then reverse the accumulated letters. -/
def specLabel (n : Int) : String := String.mk (lsdLetters n.toNat).reverse

/-- Left inverse of the column labeler: fold the letters back into a
number, reading each letter as a digit 1..26. -/
def unlabel (s : String) : Nat :=
  s.data.foldl (fun a c => a * 26 + (c.toNat - 64)) 0

/-! ## Content fingerprint

get_data_hash in sync_utils.py is
hashlib.md5(json.dumps(data, sort_keys=True).encode()).hexdigest().
The data is always a list of lists of strings, so sort_keys has no
effect and the serialization is the bracketed, comma separated dump
below.  The digest is modelled by the serialization itself: md5 is one
fixed deterministic function of the serialized bytes, so fingerprint
equality in the model tracks equality of the serialized form, which is
what the change-detection comparisons in the sources consume. -/

/-- Escapes performed by json.dumps that can arise for the two
characters that always need escaping.  Control characters and
non-ASCII escapes are orthogonal to every property proved here. -/
def jsonEscapeChar (c : Char) : List Char :=
  if c = '\\' then ['\\', '\\']
  else if c = '"' then ['\\', '"']
  else [c]

/-- Serialization of one cell string, as json.dumps renders it. -/
def jsonStr (s : String) : String :=
  "\"" ++ String.mk (s.data.foldr (fun c acc => jsonEscapeChar c ++ acc) []) ++ "\""

/-- Serialization of one row, as json.dumps renders a list. -/
def jsonRow (r : List Cell) : String :=
  "[" ++ String.intercalate ", " (r.map jsonStr) ++ "]"

/-- get_data_hash from sync_utils.py: the canonical serialized form of
the grid that the md5 digest is computed over. -/
def get_data_hash (g : Grid) : String :=
  "[" ++ String.intercalate ", " (g.map jsonRow) ++ "]"

/-! ## Relational table model

The table created by _sync_to_mysql_raw has an integer primary-key
column id plus text columns named by column letters.  Rows are modelled
as the id paired with the cell values aligned positionally with the
column list; a value of none models SQL NULL. -/

/-- Relational table: whether the id column still carries
AUTO_INCREMENT, the text column names in creation order (identity
column excluded), and the stored rows. -/
structure Table where
  autoInc : Bool
  cols : List String
  rows : List (Int × List (Option String))
deriving DecidableEq

/-- Conversion applied when building upsert parameters in
_sync_to_mysql_raw: `padded_row[i] if padded_row[i] else None` maps the
empty string to NULL and any other string to itself. -/
def toNull (s : Cell) : Option String :=
  if s = "" then none else some s

/-- Pad a sheet row with empty strings on the right, as
`row + [""] * (len(col_names) - len(row))` does (the Python repeat
count is never negative in context, matching Nat subtraction). -/
def padRow (row : List Cell) (m : Nat) : List Cell :=
  row ++ List.replicate (m - row.length) ""

/-- Parameter list built for one upsert statement: each column name of
col_names paired with the null-converted padded cell. -/
def rowParams (colNames : List String) (row : List Cell) :
    List (String × Option String) :=
  (colNames.zip (padRow row colNames.length)).map (fun p => (p.1, toNull p.2))

/-- Look up the parameter bound to a column name. -/
def lookupCol (ps : List (String × Option String)) (c : String) :
    Option (Option String) :=
  (ps.find? (fun p => p.1 == c)).map (fun p => p.2)

/-- INSERT ... ON DUPLICATE KEY UPDATE, as executed once per sheet row:
if the id exists, every column named in the parameter list is
overwritten and other columns keep their values; otherwise a new row is
inserted in which columns outside the parameter list are NULL. -/
def upsertRow (t : Table) (rid : Int) (ps : List (String × Option String)) : Table :=
  if t.rows.any (fun r => r.1 == rid) then
    { t with rows := t.rows.map (fun r =>
        if r.1 == rid then
          (rid, (t.cols.zip r.2).map (fun cv => (lookupCol ps cv.1).getD cv.2))
        else r) }
  else
    { t with rows := t.rows ++
        [(rid, t.cols.map (fun c => (lookupCol ps c).getD none))] }

/-- The upsert loop of _sync_to_mysql_raw: for idx, row in
enumerate(all_values), upsert with row_id = idx + 1. -/
def upsertLoop (colNames : List String) : Table → Nat → Grid → Table
  | t, _, [] => t
  | t, i, row :: rest =>
      upsertLoop colNames (upsertRow t ((i : Int) + 1) (rowParams colNames row)) (i + 1) rest

/-- Success flags for the relational statements a reconciliation pass
executes; false models the statement raising. -/
structure DbEnv where
  createOk : Bool
  fixIdOk : Bool
  addColOk : Bool
  deleteOk : Bool
  upsertOk : Bool
deriving DecidableEq

/-- Environment in which every relational statement succeeds. -/
def allOk : DbEnv := ⟨true, true, true, true, true⟩

/-- Result of _sync_to_mysql_raw: the table state after the statements
that executed, with the message of the statement that raised, if any. -/
inductive RawRes
  | ok (t : Table)
  | err (t : Option Table) (msg : String)
deriving DecidableEq

/-- Columns the add-column loop adds: those of col_names not already
present, membership checked against the column list captured once
before the loop (inspector.get_columns returns id first). -/
def newColsFor (cols : List String) (cn : List String) : List String :=
  cn.filter (fun c => !(("id" :: cols).contains c))

/-- ASCII case folding of one character, the comparison MySQL applies
to column names: the letters A to Z fold to their lowercase forms and
every other character is unchanged. -/
def foldCase (c : Char) : Char :=
  if 'A' ≤ c ∧ c ≤ 'Z' then Char.ofNat (c.toNat + 32) else c

/-- Case-insensitive column-name equality, as MySQL compares the name
in ALTER TABLE ADD COLUMN against the existing columns. -/
def sameCol (a b : String) : Bool :=
  a.data.map foldCase == b.data.map foldCase

/-- The add-column loop over the missing names (the Python membership
test on line 86 is a case-sensitive comparison against the snapshot,
but each executed ALTER TABLE ADD COLUMN is checked by MySQL against
the columns current at that statement, case-insensitively, and raises
ERROR 1060 on a duplicate).  DDL statements commit one by one, so the
columns added before a failing statement persist.  Given the current
column names and the names still to add, returns the names actually
added, in order, and the error of the statement that raised, if any. -/
def addColLoop : List String → List String → List String × Option String
  | _, [] => ([], none)
  | cur, c :: rest =>
      if cur.any (fun d => sameCol d c) then ([], some "duplicate column name")
      else
        let r := addColLoop (cur ++ [c]) rest
        (c :: r.1, r.2)

/-- Table after appending the given new text columns: every existing
row reads NULL in them. -/
def addColsL (t : Table) (added : List String) : Table :=
  ⟨t.autoInc, t.cols ++ added,
    t.rows.map (fun r =>
      (r.1, r.2 ++ added.map (fun _ => (none : Option String))))⟩

/-- Case-insensitive reading of a letter list as a bijective base-26
numeral, used to invert case-folded column labels. -/
def unlabelFold (l : List Char) : Nat :=
  l.foldl (fun a c => a * 26 + (c.toNat % 32)) 0

/-- True exactly on the error constructor. -/
def RawRes.isErr : RawRes → Bool
  | RawRes.err _ _ => true
  | RawRes.ok _ => false

/-- Table after DELETE FROM t WHERE id > n. -/
def delRows (t : Table) (n : Int) : Table :=
  { t with rows := t.rows.filter (fun r => decide (r.1 ≤ n)) }

/-- Steps of _sync_to_mysql_raw once the table exists.  The
AUTO_INCREMENT removal is wrapped in its own try/except whose failure
is swallowed; the add-column loop only executes statements when a
column is missing case-sensitively, while MySQL checks each executed
name case-insensitively against the current columns and raises on a
duplicate (addColLoop); the DELETE always executes; each upsert
statement carries the ON DUPLICATE KEY UPDATE clause, which is empty
and hence a SQL error when col_names is empty; an environment-induced
failure of a statement kind is modelled at its first execution. -/
def rawSteps (env : DbEnv) (t0 : Table) (colNames : List String) (grid : Grid) : RawRes :=
  let t1 := if env.fixIdOk then { t0 with autoInc := false } else t0
  if newColsFor t1.cols colNames ≠ [] ∧ env.addColOk = false then
    RawRes.err (some t1) "add column failed"
  else
    let ar := addColLoop ("id" :: t1.cols) (newColsFor t1.cols colNames)
    let t2 := addColsL t1 ar.1
    match ar.2 with
    | some e => RawRes.err (some t2) e
    | none =>
      if env.deleteOk = false then RawRes.err (some t2) "delete failed"
      else
        let t3 := delRows t2 (grid.length : Int)
        if grid = [] then RawRes.ok t3
        else if colNames = [] then
          RawRes.err (some t3) "sql error: empty update clause"
        else if env.upsertOk = false then RawRes.err (some t3) "upsert failed"
        else RawRes.ok (upsertLoop colNames t3 0 grid)

/-- _sync_to_mysql_raw from mysql_sync.py (same code as
sync_to_mysql_raw in main.py): create the table when absent with only
the id INT PRIMARY KEY column, then run the reconciliation steps. -/
def sync_to_mysql_raw (env : DbEnv) (table : Option Table)
    (colNames : List String) (grid : Grid) : RawRes :=
  match table with
  | none =>
      if env.createOk then rawSteps env ⟨false, [], []⟩ colNames grid
      else RawRes.err none "create table failed"
  | some t => rawSteps env t colNames grid

/-- Widest row length of the grid, as max(len(row) for row in
all_values); the fold with base 0 agrees with the Python max on the
non-empty lists it is applied to. -/
def maxCols (g : Grid) : Nat := g.foldl (fun a r => max a r.length) 0

/-- Column names derived from the grid:
[get_column_letter(i + 1) for i in range(max_cols)]. -/
def colNamesFor (g : Grid) : List String :=
  (List.range (maxCols g)).map (fun i => get_column_letter (Int.ofNat (i + 1)))

/-! ## Sync state and the two orchestrators -/

/-- Per-table record written by save_sync_state in sync_utils.py. -/
structure SyncRecord where
  db_hash : String
  sheet_hash : String
  last_sync : Int
  direction : String
deriving DecidableEq

/-- Echo guard of sync_mysql_to_sheets, lines 66 to 75 of
sheets_sync.py: skip when the stored direction is sheets_to_mysql and
the stored timestamp is less than five seconds old.  An absent record
reads as direction None and timestamp 0 through dict.get. -/
def echoGuard (state : Option SyncRecord) (now : Int) : Bool :=
  (match state with
    | some r => decide (r.direction = "sheets_to_mysql")
    | none => false) &&
  decide (now - (match state with | some r => r.last_sync | none => 0) < 5)

/-- No-change guard of sync_mysql_to_sheets, line 77 of sheets_sync.py:
last_state.get("db_hash") == current hash; an absent record or field
reads as None, which never equals a string. -/
def noChangeGuard (state : Option SyncRecord) (h : String) : Bool :=
  match state with
  | some r => r.db_hash == h
  | none => false

/-- Insertion step for ordering rows by id, modelling ORDER BY id ASC. -/
def insertById (p : Int × List (Option String)) :
    List (Int × List (Option String)) → List (Int × List (Option String))
  | [] => [p]
  | q :: qs => if p.1 ≤ q.1 then p :: q :: qs else q :: insertById p qs

/-- Rows sorted by ascending id, modelling SELECT ... ORDER BY id ASC. -/
def sortById : List (Int × List (Option String)) → List (Int × List (Option String))
  | [] => []
  | p :: ps => insertById p (sortById ps)

/-- Data prepared for the sheet by sync_mysql_to_sheets, lines 48 to
59: rows in id order, the identity column excluded, NULL rendered as
the empty string and every other text value rendered as itself. -/
def tableToGrid (t : Table) : Grid :=
  (sortById t.rows).map (fun r => r.2.map (fun v => v.getD ""))

/-- Caller-visible status of sync_sheets_to_mysql: the dicts
{"status": "success", "rows": n}, {"status": "ignored", "reason":
"no_data"} and {"status": "error", "message": m}, plus a constructor
for an exception crossing the function boundary uncaught, which this
function is proved never to produce. -/
inductive SmStatus
  | success (rows : Nat)
  | ignored
  | error (msg : String)
  | raised (msg : String)
deriving DecidableEq

/-- True exactly on the uncaught-exception constructor. -/
def SmStatus.isRaised : SmStatus → Bool
  | SmStatus.raised _ => true
  | _ => false

/-- Environment of one sync_sheets_to_mysql pass: what the spreadsheet
read returns (or the exception it raises), the current table,
relational statement outcomes, whether writing the state file succeeds,
the wall-clock time, and the stored state record for this table. -/
structure SmEnv where
  sheetReadErr : Option String
  sheet : Grid
  table : Option Table
  db : DbEnv
  saveOk : Bool
  now : Int
  state : Option SyncRecord
deriving DecidableEq

/-- Observable result of one sync_sheets_to_mysql pass. -/
structure SmResult where
  status : SmStatus
  table : Option Table
  state : Option SyncRecord
deriving DecidableEq

/-- sync_sheets_to_mysql from mysql_sync.py.  The sheet read and the
empty check sit in the first try/except; the raw reconciliation and the
state save sit in the second; there is no echo guard and no fingerprint
short-circuit in this direction, and the saved record has db_hash set
to the empty sentinel string. -/
def sync_sheets_to_mysql (env : SmEnv) : SmResult :=
  match env.sheetReadErr with
  | some e => ⟨SmStatus.error e, env.table, env.state⟩
  | none =>
    if env.sheet = [] then ⟨SmStatus.ignored, env.table, env.state⟩
    else
      match sync_to_mysql_raw env.db env.table (colNamesFor env.sheet) env.sheet with
      | RawRes.err t e => ⟨SmStatus.error e, t, env.state⟩
      | RawRes.ok t =>
        if env.saveOk then
          ⟨SmStatus.success env.sheet.length, some t,
            some ⟨"", get_data_hash env.sheet, env.now, "sheets_to_mysql"⟩⟩
        else ⟨SmStatus.error "save sync state failed", some t, env.state⟩

/-- Operations sync_mysql_to_sheets can perform on the sheet. -/
inductive SheetOp
  | clear
  | update (range : String) (data : Grid)
deriving DecidableEq

/-- Outcome of one sync_mysql_to_sheets pass.  The raised constructor
models an exception leaving the function uncaught; every other
constructor corresponds to one of the return points of the Python
function, all of which return None. -/
inductive MsOutcome
  | noTable
  | readError (msg : String)
  | noData
  | skippedEcho
  | skippedNoChange
  | openError (msg : String)
  | raised (msg : String)
  | writeError (msg : String)
  | done
deriving DecidableEq

/-- Environment of one sync_mysql_to_sheets pass. -/
structure MsEnv where
  table : Option Table
  dbReadErr : Option String
  state : Option SyncRecord
  now : Int
  openErr : Option String
  getAllValuesOk : Bool
  priorSheet : Grid
  clearOk : Bool
  updateOk : Bool
  saveOk : Bool
deriving DecidableEq

/-- Observable result of one sync_mysql_to_sheets pass: the control
outcome, the sheet operations that actually executed, the state record
for this table after the pass, whether the external-modification
warning printed, and the Python return value, which is None at every
return point of the function. -/
structure MsResult where
  outcome : MsOutcome
  sheetOps : List SheetOp
  state : Option SyncRecord
  warned : Bool
  pyret : Option SmStatus
deriving DecidableEq

/-- External-modification warning of lines 88 to 97: the stored sheet
fingerprint is truthy (present and non-empty) and differs from the
fingerprint of what the sheet currently holds. -/
def msWarned (st : Option SyncRecord) (prior : Grid) : Bool :=
  match st with
  | some r => decide (r.sheet_hash ≠ "") && decide (r.sheet_hash ≠ get_data_hash prior)
  | none => false

/-- Final try/except of sync_mysql_to_sheets, lines 99 to 124: clear
the sheet, write the full block when there is data, then save the
state; an exception from any of the three is caught by the same handler
and reported only by a printed message and a plain return. -/
def msWriteBlock (sheetData : Grid) (currentDbHash : String) (numCols : Nat)
    (now : Int) (st : Option SyncRecord) (co uo sv : Bool) (warned : Bool) : MsResult :=
  if co = false then ⟨MsOutcome.writeError "clear raised", [], st, warned, none⟩
  else if sheetData = [] then
    if sv then
      ⟨MsOutcome.done, [SheetOp.clear],
        some ⟨currentDbHash, get_data_hash [], now, "mysql_to_sheets"⟩, warned, none⟩
    else ⟨MsOutcome.writeError "save raised", [SheetOp.clear], st, warned, none⟩
  else
    let rangeRef := "A1:" ++ get_column_letter (numCols : Int) ++ toString sheetData.length
    if uo = false then
      ⟨MsOutcome.writeError "update raised", [SheetOp.clear], st, warned, none⟩
    else if sv = false then
      ⟨MsOutcome.writeError "save raised",
        [SheetOp.clear, SheetOp.update rangeRef sheetData], st, warned, none⟩
    else
      ⟨MsOutcome.done, [SheetOp.clear, SheetOp.update rangeRef sheetData],
        some ⟨currentDbHash, get_data_hash sheetData, now, "mysql_to_sheets"⟩, warned, none⟩

/-- sync_mysql_to_sheets from sheets_sync.py.  The table read sits in
its own try/except; reading the current sheet values on line 88 is not
wrapped, so its exception leaves the function uncaught; the final
try/except is msWriteBlock. -/
def sync_mysql_to_sheets (env : MsEnv) : MsResult :=
  match env.table with
  | none => ⟨MsOutcome.noTable, [], env.state, false, none⟩
  | some t =>
    match env.dbReadErr with
    | some e => ⟨MsOutcome.readError e, [], env.state, false, none⟩
    | none =>
      if sortById t.rows = [] then ⟨MsOutcome.noData, [], env.state, false, none⟩
      else
        let sheetData := tableToGrid t
        let currentDbHash := get_data_hash sheetData
        if echoGuard env.state env.now then
          ⟨MsOutcome.skippedEcho, [], env.state, false, none⟩
        else if noChangeGuard env.state currentDbHash then
          ⟨MsOutcome.skippedNoChange, [], env.state, false, none⟩
        else
          match env.openErr with
          | some e => ⟨MsOutcome.openError e, [], env.state, false, none⟩
          | none =>
            if env.getAllValuesOk = false then
              ⟨MsOutcome.raised "get_all_values raised", [], env.state, false, none⟩
            else
              msWriteBlock sheetData currentDbHash t.cols.length env.now env.state
                env.clearOk env.updateOk env.saveOk (msWarned env.state env.priorSheet)

/-- The id column values of a table, in storage order. -/
def idsOf (t : Table) : List Int := t.rows.map (fun r => r.1)

/-- Rows that the upsert loop produces on a fresh table: grid row at
0-based position j becomes the stored row with id i + j + 1 and the
null-converted cells. -/
def numberRows : Nat → Grid → List (Int × List (Option String))
  | _, [] => []
  | i, row :: rest => ((i : Int) + 1, row.map toNull) :: numberRows (i + 1) rest

/-- The table produced by reconciling a fresh (absent) table from a
rectangular grid: the letter columns of the grid and one stored row per
grid row. -/
def freshTable (g : Grid) : Table := ⟨false, colNamesFor g, numberRows 0 g⟩

/-! ## Concrete objects used by witnesses and counterexamples -/

/-- Concrete rectangular grid with empty-string cells. -/
def gEx : Grid := [["a", ""], ["", "b"]]

/-- Concrete rectangular grid of one row and 238 columns: its column
labels include label 238, the string ID, which MySQL rejects as a
duplicate of the identity column id. -/
def g238 : Grid := [List.replicate 238 "x"]

/-- Concrete empty starting table for the shrink witness. -/
def tW : Table := ⟨false, [], []⟩

/-- Concrete five-row grid. -/
def g5W : Grid := [["a"], ["b"], ["c"], ["d"], ["e"]]

/-- Concrete three-row grid. -/
def g3W : Grid := [["x"], ["y"], ["z"]]

/-- Table after reconciling tW from g5W. -/
def t1W : Table :=
  ⟨false, ["A"],
    [(1, [some "a"]), (2, [some "b"]), (3, [some "c"]), (4, [some "d"]), (5, [some "e"])]⟩

/-- Table after reconciling t1W from g3W. -/
def t2W : Table := ⟨false, ["A"], [(1, [some "x"]), (2, [some "y"]), (3, [some "z"])]⟩

/-- Small concrete table: one text column A, one row with id 1. -/
def tEx : Table := ⟨false, ["A"], [(1, [some "x"])]⟩

/-- Concrete environment: a sheets_to_mysql request arriving two
seconds after a recorded mysql_to_sheets sync of the same table, with
every external call succeeding. -/
def smEnvC1 : SmEnv :=
  ⟨none, [["x"]], none, allOk, true, 102, some ⟨"h1", "h2", 100, "mysql_to_sheets"⟩⟩

/-- Concrete environment: a mysql_to_sheets request arriving two
seconds after a recorded sheets_to_mysql sync. -/
def msEnvC1w : MsEnv :=
  ⟨some tEx, none, some ⟨"", "", 100, "sheets_to_mysql"⟩, 102, none, true, [], true, true, true⟩

/-- Concrete environment: a mysql_to_sheets request for an existing
table that contains zero rows, with every external call succeeding. -/
def msEnvC2 : MsEnv :=
  ⟨some ⟨false, ["A"], []⟩, none, none, 100, none, true, [], true, true, true⟩

/-- Concrete environment: a mysql_to_sheets request that passes every
guard and then has worksheet.get_all_values() raise. -/
def msEnvC4 : MsEnv :=
  ⟨some tEx, none, none, 100, none, false, [], true, true, true⟩

/-- Concrete state record whose stored db fingerprint matches the
current fingerprint of tEx. -/
def recC6 : SyncRecord := ⟨get_data_hash (tableToGrid tEx), "", 0, "mysql_to_sheets"⟩

/-- Concrete environment: a mysql_to_sheets request whose table
fingerprint equals the stored one. -/
def msEnvC6 : MsEnv :=
  ⟨some tEx, none, some recC6, 100, none, true, [], true, true, true⟩

/-- Concrete environment: a mysql_to_sheets pass in which
worksheet.update raises. -/
def msEnvC7fail : MsEnv :=
  ⟨some tEx, none, none, 100, none, true, [], true, false, true⟩

/-- Concrete environment: the same pass with every call succeeding. -/
def msEnvC7ok : MsEnv :=
  ⟨some tEx, none, none, 100, none, true, [], true, true, true⟩

/-- Concrete environment: a fully successful sheets_to_mysql pass over
a one-cell sheet with no prior state record. -/
def smEnvC7w : SmEnv := ⟨none, [["x"]], none, allOk, true, 50, none⟩

/-! ## Properties of the column labeler -/

theorem colCoreAux_fuel (n : Nat) : ∀ f1 f2 : Nat, n ≤ f1 → n ≤ f2 →
    colCoreAux f1 n = colCoreAux f2 n := by
  induction n using Nat.strong_induction_on with
  | _ n ih =>
    intro f1 f2 h1 h2
    match n, f1, f2 with
    | 0, f1, f2 =>
        cases f1 <;> cases f2 <;> rfl
    | m + 1, g1 + 1, g2 + 1 =>
        show colCoreAux g1 (m / 26) ++ _ = colCoreAux g2 (m / 26) ++ _
        have hlt : m / 26 < m + 1 := Nat.lt_succ_of_le (Nat.div_le_self m 26)
        have hb1 : m / 26 ≤ g1 := le_trans (Nat.div_le_self m 26) (Nat.succ_le_succ_iff.mp h1)
        have hb2 : m / 26 ≤ g2 := le_trans (Nat.div_le_self m 26) (Nat.succ_le_succ_iff.mp h2)
        rw [ih (m / 26) hlt g1 g2 hb1 hb2]

theorem colCore_succ (n : Nat) :
    colCore (n + 1) = colCore (n / 26) ++ String.singleton (Char.ofNat (65 + n % 26)) := by
  show colCoreAux n (n / 26) ++ _ = colCoreAux (n / 26) (n / 26) ++ _
  rw [colCoreAux_fuel (n / 26) n (n / 26) (Nat.div_le_self n 26) (le_refl _)]

theorem lsdLettersAux_fuel (n : Nat) : ∀ f1 f2 : Nat, n ≤ f1 → n ≤ f2 →
    lsdLettersAux f1 n = lsdLettersAux f2 n := by
  induction n using Nat.strong_induction_on with
  | _ n ih =>
    intro f1 f2 h1 h2
    match n, f1, f2 with
    | 0, f1, f2 =>
        cases f1 <;> cases f2 <;> rfl
    | m + 1, g1 + 1, g2 + 1 =>
        show _ :: lsdLettersAux g1 (m / 26) = _ :: lsdLettersAux g2 (m / 26)
        have hlt : m / 26 < m + 1 := Nat.lt_succ_of_le (Nat.div_le_self m 26)
        have hb1 : m / 26 ≤ g1 := le_trans (Nat.div_le_self m 26) (Nat.succ_le_succ_iff.mp h1)
        have hb2 : m / 26 ≤ g2 := le_trans (Nat.div_le_self m 26) (Nat.succ_le_succ_iff.mp h2)
        rw [ih (m / 26) hlt g1 g2 hb1 hb2]

theorem lsdLetters_succ (n : Nat) :
    lsdLetters (n + 1) = Char.ofNat (65 + n % 26) :: lsdLetters (n / 26) := by
  show _ :: lsdLettersAux n (n / 26) = _ :: lsdLettersAux (n / 26) (n / 26)
  rw [lsdLettersAux_fuel (n / 26) n (n / 26) (Nat.div_le_self n 26) (le_refl _)]

theorem colCore_eq_rev (n : Nat) :
    colCore n = String.mk (lsdLetters n).reverse := by
  induction n using Nat.strong_induction_on with
  | _ n ih =>
    match n with
    | 0 => rfl
    | Nat.succ m =>
      rw [colCore_succ, lsdLetters_succ,
        ih (m / 26) (Nat.lt_succ_of_le (Nat.div_le_self m 26))]
      rw [List.reverse_cons]
      rfl

theorem char_round (r : Nat) (h : r < 26) :
    (Char.ofNat (65 + r)).toNat - 64 = r + 1 := by
  interval_cases r <;> decide

theorem unlabel_colCore (n : Nat) : unlabel (colCore n) = n := by
  induction n using Nat.strong_induction_on with
  | _ n ih =>
    match n with
    | 0 => rfl
    | Nat.succ m =>
      have hdiv : m / 26 < m + 1 := Nat.lt_succ_of_le (Nat.div_le_self m 26)
      have hrec := ih (m / 26) hdiv
      unfold unlabel at hrec ⊢
      rw [colCore_succ]
      have hdata : (colCore (m / 26) ++
          String.singleton (Char.ofNat (65 + m % 26))).data =
          (colCore (m / 26)).data ++ [Char.ofNat (65 + m % 26)] := rfl
      rw [hdata, List.foldl_append]
      simp only [List.foldl_cons, List.foldl_nil]
      rw [hrec, char_round (m % 26) (Nat.mod_lt m (by decide))]
      omega

theorem colCore_injective : Function.Injective colCore := by
  intro a b h
  have := unlabel_colCore a
  rw [h, unlabel_colCore] at this
  omega

theorem colCore_ne_id (n : Nat) : colCore n ≠ "id" := by
  intro h
  have h1 : unlabel (colCore n) = n := unlabel_colCore n
  rw [h] at h1
  have h2 : unlabel "id" = 1102 := by decide
  rw [h2] at h1
  rw [← h1] at h
  exact absurd h (by decide)

/-- C8: the column labeler is the bijective base-26 letter encoding:
for every n ≥ 1 it agrees with the spec algorithm that repeatedly takes
(n - 1) mod 26 as the next letter, sets n to (n - 1) div 26, stops at
0, and reverses the accumulated letters; and the landmark values
label(1)=A, label(26)=Z, label(27)=AA, label(52)=AZ, label(53)=BA,
label(702)=ZZ, label(703)=AAA all hold. -/
theorem C8_column_labeler :
    (∀ n : Int, 1 ≤ n → get_column_letter n = specLabel n) ∧
    get_column_letter 1 = "A" ∧ get_column_letter 26 = "Z" ∧
    get_column_letter 27 = "AA" ∧ get_column_letter 52 = "AZ" ∧
    get_column_letter 53 = "BA" ∧ get_column_letter 702 = "ZZ" ∧
    get_column_letter 703 = "AAA" :=
  ⟨fun n _ => colCore_eq_rev n.toNat, by decide, by decide, by decide,
    by decide, by decide, by decide, by decide⟩

/-- Witness for C8 at the concrete input 28. -/
theorem C8_column_labeler_witness :
    (1 : Int) ≤ 28 ∧ get_column_letter 28 = specLabel 28 :=
  ⟨by decide, C8_column_labeler.1 28 (by decide)⟩

/-- C10: for every integer n ≤ 0 the column labeler terminates and
returns the empty string rather than raising: the while loop body is
never entered, so the function is total over all integers. -/
theorem C10_labeler_nonpositive (n : Int) (h : n ≤ 0) :
    get_column_letter n = "" := by
  unfold get_column_letter
  rw [Int.toNat_of_nonpos h]
  rfl

/-- Witness for C10 at the concrete input -3. -/
theorem C10_labeler_nonpositive_witness :
    (-3 : Int) ≤ 0 ∧ get_column_letter (-3) = "" :=
  ⟨by decide, C10_labeler_nonpositive (-3) (by decide)⟩

/-! ## Orchestrator lemmas -/

theorem ms_echo_skip (e : MsEnv) (t : Table) (rec : SyncRecord)
    (h1 : e.table = some t) (h2 : e.dbReadErr = none) (h3 : e.state = some rec)
    (hrows : sortById t.rows ≠ []) (hdir : rec.direction = "sheets_to_mysql")
    (hlt : e.now - rec.last_sync < 5) :
    sync_mysql_to_sheets e = ⟨MsOutcome.skippedEcho, [], some rec, false, none⟩ := by
  obtain ⟨tb, dre, st, now, oe, gav, prior, co, uo, sv⟩ := e
  simp only at h1 h2 h3 hlt
  subst h1 h2 h3
  have hg : echoGuard (some rec) now = true := by
    simp [echoGuard, hdir]
    omega
  simp [sync_mysql_to_sheets, hrows, hg]

theorem ms_echo_old (e : MsEnv) (t : Table) (rec : SyncRecord)
    (h1 : e.table = some t) (h2 : e.dbReadErr = none) (h3 : e.state = some rec)
    (hge : 5 ≤ e.now - rec.last_sync) :
    (sync_mysql_to_sheets e).outcome ≠ MsOutcome.skippedEcho := by
  obtain ⟨tb, dre, st, now, oe, gav, prior, co, uo, sv⟩ := e
  simp only at h1 h2 h3 hge
  subst h1 h2 h3
  have hg : echoGuard (some rec) now = false := by
    simp [echoGuard]
    intro _
    omega
  unfold sync_mysql_to_sheets
  simp only [hg]
  repeat' split
  all_goals simp_all [msWriteBlock]
  repeat' split
  all_goals simp

theorem sm_state_independent (e : SmEnv) (s : Option SyncRecord) :
    (sync_sheets_to_mysql { e with state := s }).status =
      (sync_sheets_to_mysql e).status ∧
    (sync_sheets_to_mysql { e with state := s }).table =
      (sync_sheets_to_mysql e).table := by
  obtain ⟨sre, sheet, tb, db, sv, now, st⟩ := e
  unfold sync_sheets_to_mysql
  cases sre with
  | some m => exact ⟨rfl, rfl⟩
  | none =>
    by_cases hg : sheet = []
    · simp [hg]
    · simp only [hg]
      cases hr : sync_to_mysql_raw db tb (colNamesFor sheet) sheet with
      | err t m => simp [hr]
      | ok t => cases sv <;> simp [hr]

/-- C1 (amended): the five-second echo guard exists only in the
table_to_sheet direction.  A mysql_to_sheets request finding a
sheets_to_mysql record younger than five seconds is skipped with no
sheet operation and unchanged state, and one finding the record five or
more seconds old is never echo-skipped; a sheets_to_mysql request never
consults the state record at all: its status and its effect on the
table are the same for every stored record, so it proceeds even two
seconds after an opposite-direction sync. -/
theorem C1_echo_guard_amended :
    (∀ (e : MsEnv) (t : Table) (rec : SyncRecord),
      e.table = some t → e.dbReadErr = none → e.state = some rec →
      sortById t.rows ≠ [] → rec.direction = "sheets_to_mysql" →
      e.now - rec.last_sync < 5 →
      sync_mysql_to_sheets e = ⟨MsOutcome.skippedEcho, [], some rec, false, none⟩) ∧
    (∀ (e : MsEnv) (t : Table) (rec : SyncRecord),
      e.table = some t → e.dbReadErr = none → e.state = some rec →
      5 ≤ e.now - rec.last_sync →
      (sync_mysql_to_sheets e).outcome ≠ MsOutcome.skippedEcho) ∧
    (∀ (e : SmEnv) (s : Option SyncRecord),
      (sync_sheets_to_mysql { e with state := s }).status =
        (sync_sheets_to_mysql e).status ∧
      (sync_sheets_to_mysql { e with state := s }).table =
        (sync_sheets_to_mysql e).table) :=
  ⟨ms_echo_skip, ms_echo_old, sm_state_independent⟩

/-- C1 counterexample: a sheets_to_mysql request arriving two seconds
after a recorded mysql_to_sheets sync is not skipped; it performs the
full reconciliation and reports success, refuting the claim that every
direction honors the echo guard. -/
theorem C1_counterexample :
    smEnvC1.state = some ⟨"h1", "h2", 100, "mysql_to_sheets"⟩ ∧
    smEnvC1.now = 102 ∧
    (sync_sheets_to_mysql smEnvC1).status = SmStatus.success 1 := by decide

/-- Witness for C1 at a concrete environment two seconds after an
opposite-direction sync. -/
theorem C1_echo_guard_amended_witness :
    ((102 : Int) - 100 < 5) ∧
    sync_mysql_to_sheets msEnvC1w =
      ⟨MsOutcome.skippedEcho, [], some ⟨"", "", 100, "sheets_to_mysql"⟩, false, none⟩ :=
  ⟨by decide,
    C1_echo_guard_amended.1 msEnvC1w tEx ⟨"", "", 100, "sheets_to_mysql"⟩
      rfl rfl rfl (by decide) rfl (by decide)⟩

/-- C2 (amended): a mysql_to_sheets pass for an existing table with
zero rows returns at the no-data check before any sheet access: the
sheet is neither cleared nor written, and the sync state is unchanged. -/
theorem C2_empty_table_amended (e : MsEnv) (t : Table)
    (h1 : e.table = some t) (h2 : e.dbReadErr = none) (h3 : t.rows = []) :
    sync_mysql_to_sheets e = ⟨MsOutcome.noData, [], e.state, false, none⟩ := by
  obtain ⟨tb, dre, st, now, oe, gav, prior, co, uo, sv⟩ := e
  simp only at h1 h2
  subst h1 h2
  simp [sync_mysql_to_sheets, h3, sortById]

/-- C2 counterexample: for an existing table with zero rows and every
external call able to succeed, the pass performs no sheet operation at
all; in particular the sheet is never cleared, refuting the claim that
clearing is the terminal outcome of the pass. -/
theorem C2_counterexample :
    (sync_mysql_to_sheets msEnvC2).outcome = MsOutcome.noData ∧
    (sync_mysql_to_sheets msEnvC2).sheetOps = [] ∧
    SheetOp.clear ∉ (sync_mysql_to_sheets msEnvC2).sheetOps := by decide

/-- Witness for C2 at a concrete empty table. -/
theorem C2_empty_table_amended_witness :
    (Table.rows ⟨false, ["A"], []⟩ = []) ∧
    sync_mysql_to_sheets msEnvC2 = ⟨MsOutcome.noData, [], none, false, none⟩ :=
  ⟨rfl, C2_empty_table_amended msEnvC2 ⟨false, ["A"], []⟩ rfl rfl rfl⟩

/-- C6: a mysql_to_sheets request for a readable, non-empty table whose
current fingerprint equals the stored last_db_fingerprint performs zero
sheet operations, leaves the state unchanged, and is reported as a
skip: the fingerprint short-circuit when the echo guard does not fire,
the echo skip when it does. -/
theorem C6_noop_short_circuit (e : MsEnv) (t : Table) (rec : SyncRecord)
    (h1 : e.table = some t) (h2 : e.dbReadErr = none) (h3 : e.state = some rec)
    (hrows : sortById t.rows ≠ [])
    (hh : rec.db_hash = get_data_hash (tableToGrid t)) :
    (sync_mysql_to_sheets e).sheetOps = [] ∧
    (sync_mysql_to_sheets e).state = some rec ∧
    ((sync_mysql_to_sheets e).outcome = MsOutcome.skippedEcho ∨
     (sync_mysql_to_sheets e).outcome = MsOutcome.skippedNoChange) := by
  obtain ⟨tb, dre, st, now, oe, gav, prior, co, uo, sv⟩ := e
  simp only at h1 h2 h3
  subst h1 h2 h3
  by_cases hg : echoGuard (some rec) now
  · simp [sync_mysql_to_sheets, hrows, hg]
  · have hnc : noChangeGuard (some rec) (get_data_hash (tableToGrid t)) = true := by
      simp [noChangeGuard, hh]
    simp [sync_mysql_to_sheets, hrows, hg, hnc]

/-- Witness for C6 at a concrete table and matching stored
fingerprint. -/
theorem C6_noop_short_circuit_witness :
    sortById tEx.rows ≠ [] ∧ (sync_mysql_to_sheets msEnvC6).sheetOps = [] :=
  ⟨by decide,
    (C6_noop_short_circuit msEnvC6 tEx recC6 rfl rfl rfl (by decide) rfl).1⟩

/-- C9: noninterference of the table_to_sheet pass with prior sheet
content.  Two passes over identical table contents, state and clocks
that differ only in what the sheet currently holds produce the same
outcome, the same sheet operations (in particular the same written
grid), the same resulting state and the same return value; the prior
sheet content can only toggle the external-modification warning. -/
theorem C9_prior_sheet_noninterference (e : MsEnv) (g : Grid) :
    (sync_mysql_to_sheets { e with priorSheet := g }).outcome =
      (sync_mysql_to_sheets e).outcome ∧
    (sync_mysql_to_sheets { e with priorSheet := g }).sheetOps =
      (sync_mysql_to_sheets e).sheetOps ∧
    (sync_mysql_to_sheets { e with priorSheet := g }).state =
      (sync_mysql_to_sheets e).state ∧
    (sync_mysql_to_sheets { e with priorSheet := g }).pyret =
      (sync_mysql_to_sheets e).pyret := by
  obtain ⟨tb, dre, st, now, oe, gav, prior, co, uo, sv⟩ := e
  cases tb with
  | none => exact ⟨rfl, rfl, rfl, rfl⟩
  | some t =>
    cases dre with
    | some m => exact ⟨rfl, rfl, rfl, rfl⟩
    | none =>
      by_cases h1 : sortById t.rows = []
      · simp [sync_mysql_to_sheets, h1]
      · by_cases hg : echoGuard st now
        · simp [sync_mysql_to_sheets, h1, hg]
        · by_cases hnc : noChangeGuard st (get_data_hash (tableToGrid t))
          · simp [sync_mysql_to_sheets, h1, hg, hnc]
          · cases oe with
            | some m => simp [sync_mysql_to_sheets, h1, hg, hnc]
            | none =>
              cases gav with
              | false => simp [sync_mysql_to_sheets, h1, hg, hnc]
              | true =>
                have hb : ∀ w1 w2 : Bool,
                    (msWriteBlock (tableToGrid t) (get_data_hash (tableToGrid t))
                        t.cols.length now st co uo sv w1).outcome =
                      (msWriteBlock (tableToGrid t) (get_data_hash (tableToGrid t))
                        t.cols.length now st co uo sv w2).outcome ∧
                    (msWriteBlock (tableToGrid t) (get_data_hash (tableToGrid t))
                        t.cols.length now st co uo sv w1).sheetOps =
                      (msWriteBlock (tableToGrid t) (get_data_hash (tableToGrid t))
                        t.cols.length now st co uo sv w2).sheetOps ∧
                    (msWriteBlock (tableToGrid t) (get_data_hash (tableToGrid t))
                        t.cols.length now st co uo sv w1).state =
                      (msWriteBlock (tableToGrid t) (get_data_hash (tableToGrid t))
                        t.cols.length now st co uo sv w2).state ∧
                    (msWriteBlock (tableToGrid t) (get_data_hash (tableToGrid t))
                        t.cols.length now st co uo sv w1).pyret =
                      (msWriteBlock (tableToGrid t) (get_data_hash (tableToGrid t))
                        t.cols.length now st co uo sv w2).pyret := by
                  intro w1 w2
                  unfold msWriteBlock
                  repeat' split
                  all_goals simp_all
                have hmain := hb (msWarned st g) (msWarned st prior)
                simpa [sync_mysql_to_sheets, h1, hg, hnc] using hmain

/-! ## Error handling claims -/

theorem sm_never_raises (e : SmEnv) :
    (sync_sheets_to_mysql e).status.isRaised = false := by
  obtain ⟨sre, sheet, tb, db, sv, now, st⟩ := e
  unfold sync_sheets_to_mysql
  repeat' split
  all_goals rfl

theorem ms_pyret_none (e : MsEnv) : (sync_mysql_to_sheets e).pyret = none := by
  obtain ⟨tb, dre, st, now, oe, gav, prior, co, uo, sv⟩ := e
  simp only [sync_mysql_to_sheets, msWriteBlock]
  repeat' split
  all_goals rfl

theorem ms_gav_raises (e : MsEnv) (t : Table)
    (h1 : e.table = some t) (h2 : e.dbReadErr = none)
    (hrows : sortById t.rows ≠ [])
    (hg : echoGuard e.state e.now = false)
    (hnc : noChangeGuard e.state (get_data_hash (tableToGrid t)) = false)
    (hoe : e.openErr = none) (hgav : e.getAllValuesOk = false) :
    sync_mysql_to_sheets e =
      ⟨MsOutcome.raised "get_all_values raised", [], e.state, false, none⟩ := by
  obtain ⟨tb, dre, st, now, oe, gav, prior, co, uo, sv⟩ := e
  simp only at h1 h2 hg hnc hoe hgav
  subst h1 h2 hoe hgav
  simp [sync_mysql_to_sheets, hrows, hg, hnc]

/-- C4 (amended): sync_sheets_to_mysql always hands its caller one of
the structured statuses success, ignored or error and never lets an
exception cross its boundary; sync_mysql_to_sheets, however, returns
the Python value None at every one of its return points, so its caller
receives no structured result at all, and when the unwrapped
worksheet.get_all_values() call raises after the guards pass, the
exception leaves the function uncaught. -/
theorem C4_structured_results_amended :
    (∀ e : SmEnv, (sync_sheets_to_mysql e).status.isRaised = false) ∧
    (∀ e : MsEnv, (sync_mysql_to_sheets e).pyret = none) ∧
    (∀ (e : MsEnv) (t : Table), e.table = some t → e.dbReadErr = none →
      sortById t.rows ≠ [] → echoGuard e.state e.now = false →
      noChangeGuard e.state (get_data_hash (tableToGrid t)) = false →
      e.openErr = none → e.getAllValuesOk = false →
      sync_mysql_to_sheets e =
        ⟨MsOutcome.raised "get_all_values raised", [], e.state, false, none⟩) :=
  ⟨sm_never_raises, ms_pyret_none, ms_gav_raises⟩

/-- C4 counterexample: in a concrete environment where the table is
readable and non-empty, no guard fires and the sheet opens, a failure
of worksheet.get_all_values() propagates as an uncaught exception past
the orchestrator boundary, refuting the claim that the caller always
receives a structured result and never a raw exception. -/
theorem C4_counterexample :
    (sync_mysql_to_sheets msEnvC4).outcome =
      MsOutcome.raised "get_all_values raised" := by decide

/-- Witness for C4 at the concrete raising environment. -/
theorem C4_structured_results_amended_witness :
    sortById tEx.rows ≠ [] ∧
    sync_mysql_to_sheets msEnvC4 =
      ⟨MsOutcome.raised "get_all_values raised", [], none, false, none⟩ :=
  ⟨by decide,
    C4_structured_results_amended.2.2 msEnvC4 tEx rfl rfl (by decide) rfl rfl rfl rfl⟩

theorem sm_atomic (e : SmEnv) :
    (sync_sheets_to_mysql e).state ≠ e.state →
    (sync_sheets_to_mysql e).status = SmStatus.success e.sheet.length := by
  obtain ⟨sre, sheet, tb, db, sv, now, st⟩ := e
  unfold sync_sheets_to_mysql
  repeat' split
  all_goals intro h
  all_goals first
    | rfl
    | exact absurd rfl h

theorem ms_atomic (e : MsEnv) :
    (sync_mysql_to_sheets e).state ≠ e.state →
    (sync_mysql_to_sheets e).outcome = MsOutcome.done := by
  obtain ⟨tb, dre, st, now, oe, gav, prior, co, uo, sv⟩ := e
  simp only [sync_mysql_to_sheets, msWriteBlock]
  repeat' split
  all_goals intro h
  all_goals first
    | rfl
    | exact absurd rfl h

theorem sm_read_error_surfaced (e : SmEnv) (m : String)
    (h : e.sheetReadErr = some m) :
    (sync_sheets_to_mysql e).status = SmStatus.error m := by
  obtain ⟨sre, sheet, tb, db, sv, now, st⟩ := e
  simp only at h
  subst h
  rfl

/-- C7 (amended): sync state is atomic in both directions, in the
sense that whenever a pass leaves the stored record different from what
it found, that pass ran to its successful end (so every failing step
leaves the record unchanged, the state being written only at the end of
a successful pass); and sheets_to_mysql surfaces its failures as error
results, whereas sync_mysql_to_sheets only prints caught write
failures: its Python return value is None on both failure and success,
so the failure is not surfaced to the caller. -/
theorem C7_state_atomicity_amended :
    (∀ e : SmEnv, (sync_sheets_to_mysql e).state ≠ e.state →
      (sync_sheets_to_mysql e).status = SmStatus.success e.sheet.length) ∧
    (∀ e : MsEnv, (sync_mysql_to_sheets e).state ≠ e.state →
      (sync_mysql_to_sheets e).outcome = MsOutcome.done) ∧
    (∀ (e : SmEnv) (m : String), e.sheetReadErr = some m →
      (sync_sheets_to_mysql e).status = SmStatus.error m) :=
  ⟨sm_atomic, ms_atomic, sm_read_error_surfaced⟩

/-- C7 counterexample: a mysql_to_sheets pass in which
worksheet.update raises leaves the state unchanged (the atomicity half
holds) but returns exactly the same Python value, None, as the fully
successful pass does: the failure is not surfaced to the caller,
refuting the claim that every failing step is surfaced. -/
theorem C7_counterexample :
    (sync_mysql_to_sheets msEnvC7fail).outcome = MsOutcome.writeError "update raised" ∧
    (sync_mysql_to_sheets msEnvC7fail).state = msEnvC7fail.state ∧
    (sync_mysql_to_sheets msEnvC7ok).outcome = MsOutcome.done ∧
    (sync_mysql_to_sheets msEnvC7fail).pyret = (sync_mysql_to_sheets msEnvC7ok).pyret := by
  decide

/-- Witness for C7 at a concrete state-changing successful pass. -/
theorem C7_state_atomicity_amended_witness :
    (sync_sheets_to_mysql smEnvC7w).state ≠ smEnvC7w.state ∧
    (sync_sheets_to_mysql smEnvC7w).status = SmStatus.success smEnvC7w.sheet.length :=
  ⟨by decide, C7_state_atomicity_amended.1 smEnvC7w (by decide)⟩

/-! ## Row reconciliation: id bookkeeping -/

theorem idsOf_upsertRow (t : Table) (rid : Int) (ps : List (String × Option String)) :
    idsOf (upsertRow t rid ps) =
      if t.rows.any (fun r => r.1 == rid) then idsOf t else idsOf t ++ [rid] := by
  unfold upsertRow idsOf
  by_cases h : t.rows.any (fun r => r.1 == rid)
  · simp only [h, if_true, if_pos]
    simp only [List.map_map]
    apply List.map_congr_left
    intro r _
    by_cases hr : r.1 = rid
    · simp [hr]
    · simp [hr]
  · simp [h]

theorem mem_idsOf_upsertRow (t : Table) (rid : Int)
    (ps : List (String × Option String)) (x : Int) :
    x ∈ idsOf (upsertRow t rid ps) ↔ x ∈ idsOf t ∨ x = rid := by
  rw [idsOf_upsertRow]
  by_cases h : t.rows.any (fun r => r.1 == rid)
  · have hmem : rid ∈ idsOf t := by
      rcases List.any_eq_true.mp h with ⟨r, hr, he⟩
      have : r.1 = rid := by simpa using he
      exact this ▸ List.mem_map_of_mem _ hr
    simp only [h, if_true]
    constructor
    · exact Or.inl
    · rintro (hx | rfl)
      · exact hx
      · exact hmem
  · simp [h]

theorem nodup_idsOf_upsertRow (t : Table) (rid : Int)
    (ps : List (String × Option String)) (h : (idsOf t).Nodup) :
    (idsOf (upsertRow t rid ps)).Nodup := by
  rw [idsOf_upsertRow]
  cases ha : t.rows.any (fun r => r.1 == rid) with
  | true => simpa [ha] using h
  | false =>
    have hnot : rid ∉ idsOf t := by
      intro hmem
      rcases List.mem_map.mp hmem with ⟨r, hr, he⟩
      have hx : t.rows.any (fun r => r.1 == rid) = true :=
        List.any_eq_true.mpr ⟨r, hr, by simp [he]⟩
      rw [ha] at hx
      exact Bool.false_ne_true hx
    simp only [Bool.false_eq_true, if_false]
    rw [List.nodup_append_comm]
    exact List.nodup_cons.mpr ⟨hnot, h⟩

theorem mem_idsOf_upsertLoop (cn : List String) (g : Grid) : ∀ (i : Nat) (t : Table) (x : Int),
    x ∈ idsOf (upsertLoop cn t i g) ↔
      x ∈ idsOf t ∨ ∃ k : Nat, k < g.length ∧ x = (i : Int) + k + 1 := by
  induction g with
  | nil =>
    intro i t x
    simp [upsertLoop]
  | cons row rest ih =>
    intro i t x
    show x ∈ idsOf (upsertLoop cn (upsertRow t ((i : Int) + 1) (rowParams cn row)) (i + 1) rest) ↔ _
    rw [ih (i + 1) _ x, mem_idsOf_upsertRow]
    constructor
    · rintro ((hx | rfl) | ⟨k, hk, rfl⟩)
      · exact Or.inl hx
      · exact Or.inr ⟨0, by simp, by push_cast; ring⟩
      · refine Or.inr ⟨k + 1, by simpa using Nat.succ_lt_succ hk, ?_⟩
        push_cast
        ring
    · rintro (hx | ⟨k, hk, rfl⟩)
      · exact Or.inl (Or.inl hx)
      · match k with
        | 0 => exact Or.inl (Or.inr (by push_cast; ring))
        | Nat.succ m =>
          refine Or.inr ⟨m, by simp only [List.length_cons] at hk; omega, ?_⟩
          push_cast
          ring

theorem nodup_idsOf_upsertLoop (cn : List String) (g : Grid) : ∀ (i : Nat) (t : Table),
    (idsOf t).Nodup → (idsOf (upsertLoop cn t i g)).Nodup := by
  induction g with
  | nil => intro i t h; simpa [upsertLoop] using h
  | cons row rest ih =>
    intro i t h
    exact ih (i + 1) _ (nodup_idsOf_upsertRow _ _ _ h)

theorem idsOf_filter (rows : List (Int × List (Option String))) (n : Int) :
    (rows.filter (fun r => decide (r.1 ≤ n))).map (fun r => r.1) =
      (rows.map (fun r => r.1)).filter (fun x => decide (x ≤ n)) := by
  induction rows with
  | nil => rfl
  | cons r rs ih => by_cases h : r.1 ≤ n <;> simp [h, ih]

theorem idsOf_addColsL (t : Table) (a : List String) :
    idsOf (addColsL t a) = idsOf t := by
  unfold addColsL idsOf
  simp [List.map_map]

theorem idsOf_delRows (t : Table) (n : Int) :
    idsOf (delRows t n) = (idsOf t).filter (fun x => decide (x ≤ n)) := by
  unfold delRows idsOf
  exact idsOf_filter t.rows n

theorem mem_idsOf_delRows (t : Table) (n : Int) (x : Int) :
    x ∈ idsOf (delRows t n) ↔ x ∈ idsOf t ∧ x ≤ n := by
  rw [idsOf_delRows]
  simp [List.mem_filter]

theorem autoInc_off_idsOf (t : Table) :
    idsOf { t with autoInc := false } = idsOf t := rfl

theorem sync_to_mysql_raw_some (env : DbEnv) (t : Table) (cn : List String) (g : Grid) :
    sync_to_mysql_raw env (some t) cn g = rawSteps env t cn g := rfl

theorem rawSteps_allOk (t0 : Table) (cn : List String) (g : Grid) :
    rawSteps allOk t0 cn g =
      (match (addColLoop ("id" :: t0.cols) (newColsFor t0.cols cn)).2 with
       | some e =>
         RawRes.err (some (addColsL { t0 with autoInc := false }
           (addColLoop ("id" :: t0.cols) (newColsFor t0.cols cn)).1)) e
       | none =>
         if g = [] then
           RawRes.ok (delRows (addColsL { t0 with autoInc := false }
             (addColLoop ("id" :: t0.cols) (newColsFor t0.cols cn)).1) (g.length : Int))
         else if cn = [] then
           RawRes.err
             (some (delRows (addColsL { t0 with autoInc := false }
               (addColLoop ("id" :: t0.cols) (newColsFor t0.cols cn)).1) (g.length : Int)))
             "sql error: empty update clause"
         else
           RawRes.ok
             (upsertLoop cn (delRows (addColsL { t0 with autoInc := false }
               (addColLoop ("id" :: t0.cols) (newColsFor t0.cols cn)).1) (g.length : Int))
               0 g)) := by
  unfold rawSteps allOk
  simp

theorem raw_ok_mem (t : Table) (cn : List String) (g : Grid) (t2 : Table)
    (h : sync_to_mysql_raw allOk (some t) cn g = RawRes.ok t2) (x : Int) :
    x ∈ idsOf t2 ↔
      (x ∈ idsOf t ∧ x ≤ (g.length : Int)) ∨
      ∃ k : Nat, k < g.length ∧ x = (k : Int) + 1 := by
  rw [sync_to_mysql_raw_some, rawSteps_allOk] at h
  cases har : (addColLoop ("id" :: t.cols) (newColsFor t.cols cn)).2 with
  | some e =>
    simp only [har] at h
    exact RawRes.noConfusion h
  | none =>
    simp only [har] at h
    by_cases hg : g = []
    · rw [if_pos hg] at h
      injection h with h2
      subst h2
      rw [mem_idsOf_delRows, idsOf_addColsL, autoInc_off_idsOf]
      subst hg
      simp
    · by_cases hcn : cn = []
      · rw [if_neg hg, if_pos hcn] at h
        exact RawRes.noConfusion h
      · rw [if_neg hg, if_neg hcn] at h
        injection h with h2
        subst h2
        rw [mem_idsOf_upsertLoop, mem_idsOf_delRows, idsOf_addColsL, autoInc_off_idsOf]
        constructor
        · rintro (hx | ⟨k, hk, rfl⟩)
          · exact Or.inl hx
          · exact Or.inr ⟨k, hk, by push_cast; ring⟩
        · rintro (hx | ⟨k, hk, rfl⟩)
          · exact Or.inl hx
          · exact Or.inr ⟨k, hk, by push_cast; ring⟩

theorem raw_ok_nodup (t : Table) (cn : List String) (g : Grid) (t2 : Table)
    (h : sync_to_mysql_raw allOk (some t) cn g = RawRes.ok t2)
    (hn : (idsOf t).Nodup) : (idsOf t2).Nodup := by
  rw [sync_to_mysql_raw_some, rawSteps_allOk] at h
  have hd : (idsOf (delRows (addColsL { t with autoInc := false }
      (addColLoop ("id" :: t.cols) (newColsFor t.cols cn)).1)
      (g.length : Int))).Nodup := by
    rw [idsOf_delRows, idsOf_addColsL, autoInc_off_idsOf]
    exact hn.filter _
  cases har : (addColLoop ("id" :: t.cols) (newColsFor t.cols cn)).2 with
  | some e =>
    simp only [har] at h
    exact RawRes.noConfusion h
  | none =>
    simp only [har] at h
    by_cases hg : g = []
    · rw [if_pos hg] at h
      injection h with h2
      subst h2
      exact hd
    · by_cases hcn : cn = []
      · rw [if_neg hg, if_pos hcn] at h
        exact RawRes.noConfusion h
      · rw [if_neg hg, if_neg hcn] at h
        injection h with h2
        subst h2
        exact nodup_idsOf_upsertLoop cn g 0 _ hd

theorem raw_ok_bounds (t : Table) (cn : List String) (g : Grid) (t2 : Table)
    (h : sync_to_mysql_raw allOk (some t) cn g = RawRes.ok t2) :
    (∀ x ∈ idsOf t2, x ≤ (g.length : Int)) ∧
    (∀ k : Nat, k < g.length → ((k : Int) + 1) ∈ idsOf t2) := by
  constructor
  · intro x hx
    rcases (raw_ok_mem t cn g t2 h x).mp hx with ⟨_, hle⟩ | ⟨k, hk, rfl⟩
    · exact hle
    · have hkc : (k : Int) < (g.length : Int) := by exact_mod_cast hk
      omega
  · intro k hk
    exact (raw_ok_mem t cn g t2 h _).mpr (Or.inr ⟨k, hk, rfl⟩)

theorem shrink_53 (t t1 t2 : Table) (g5 g3 : Grid)
    (hl5 : g5.length = 5) (hl3 : g3.length = 3)
    (hpos : ∀ x ∈ idsOf t, 1 ≤ x) (hnd : (idsOf t).Nodup)
    (h5 : sync_to_mysql_raw allOk (some t) (colNamesFor g5) g5 = RawRes.ok t1)
    (h3 : sync_to_mysql_raw allOk (some t1) (colNamesFor g3) g3 = RawRes.ok t2) :
    (∀ x : Int, x ∈ idsOf t2 ↔ 1 ≤ x ∧ x ≤ 3) ∧
    t2.rows.length = 3 ∧ (4 : Int) ∉ idsOf t2 ∧ (5 : Int) ∉ idsOf t2 := by
  have hm1 := raw_ok_mem t _ g5 t1 h5
  have hm2 := raw_ok_mem t1 _ g3 t2 h3
  have hmem : ∀ x : Int, x ∈ idsOf t2 ↔ 1 ≤ x ∧ x ≤ 3 := by
    intro x
    rw [hm2 x]
    constructor
    · rintro (⟨hx1, hxle⟩ | ⟨k, hk, rfl⟩)
      · rcases (hm1 x).mp hx1 with ⟨hxt, _⟩ | ⟨k, hk5, rfl⟩
        · exact ⟨hpos x hxt, by omega⟩
        · constructor <;> omega
      · constructor <;> omega
    · rintro ⟨hx1, hx3⟩
      exact Or.inr ⟨(x - 1).toNat, by omega, by omega⟩
  have hnd2 : (idsOf t2).Nodup :=
    raw_ok_nodup t1 _ g3 t2 h3 (raw_ok_nodup t _ g5 t1 h5 hnd)
  have hperm : List.Perm (idsOf t2) ([1, 2, 3] : List Int) :=
    (List.perm_ext_iff_of_nodup hnd2 (by decide)).mpr (fun a => by
      rw [hmem a]
      constructor
      · rintro ⟨ha1, ha3⟩
        simp only [List.mem_cons, List.not_mem_nil, or_false]
        omega
      · intro ha
        simp only [List.mem_cons, List.not_mem_nil, or_false] at ha
        omega)
  have hlen : (idsOf t2).length = 3 := by simpa using hperm.length_eq
  have hrl : t2.rows.length = (idsOf t2).length := by simp [idsOf]
  refine ⟨hmem, by omega, ?_, ?_⟩
  · intro hmem4
    have := (hmem 4).mp hmem4
    omega
  · intro hmem5
    have := (hmem 5).mp hmem5
    omega

/-- C5: reconciliation deletes exactly the rows whose id exceeds the
new grid row count and the deletion threshold len(grid) never removes a
row the upsert loop writes: every surviving id is at most len(grid) and
every id 1..len(grid) is present afterwards; consequently reconciling
any table of the data model (positive, duplicate-free ids) from a
five-row grid and then from a three-row grid leaves exactly three rows
with ids 1..3 and no rows with id 4 or 5. -/
theorem C5_shrink :
    (∀ (t : Table) (cn : List String) (g : Grid) (t2 : Table),
      sync_to_mysql_raw allOk (some t) cn g = RawRes.ok t2 →
      (∀ x ∈ idsOf t2, x ≤ (g.length : Int)) ∧
      (∀ k : Nat, k < g.length → ((k : Int) + 1) ∈ idsOf t2)) ∧
    (∀ (t t1 t2 : Table) (g5 g3 : Grid),
      g5.length = 5 → g3.length = 3 →
      (∀ x ∈ idsOf t, 1 ≤ x) → (idsOf t).Nodup →
      sync_to_mysql_raw allOk (some t) (colNamesFor g5) g5 = RawRes.ok t1 →
      sync_to_mysql_raw allOk (some t1) (colNamesFor g3) g3 = RawRes.ok t2 →
      (∀ x : Int, x ∈ idsOf t2 ↔ 1 ≤ x ∧ x ≤ 3) ∧
      t2.rows.length = 3 ∧ (4 : Int) ∉ idsOf t2 ∧ (5 : Int) ∉ idsOf t2) :=
  ⟨raw_ok_bounds, shrink_53⟩

/-- Witness for C5 at a concrete empty table and concrete five-row and
three-row grids. -/
theorem C5_shrink_witness :
    g5W.length = 5 ∧ t2W.rows.length = 3 ∧
    (4 : Int) ∉ idsOf t2W ∧ (5 : Int) ∉ idsOf t2W := by
  have h := C5_shrink.2 tW t1W t2W g5W g3W (by decide) (by decide)
    (by decide) (by decide) (by decide) (by decide)
  exact ⟨by decide, h.2.1, h.2.2.1, h.2.2.2⟩

/-! ## Round trip from a fresh table -/

theorem foldl_max_const (M : Nat) : ∀ (g : Grid) (acc : Nat), g ≠ [] →
    (∀ r ∈ g, r.length = M) →
    g.foldl (fun a r => max a r.length) acc = max acc M := by
  intro g
  induction g with
  | nil => intro acc h _; exact absurd rfl h
  | cons r rs ih =>
    intro acc _ hall
    have hr : r.length = M := hall r (List.mem_cons_self r rs)
    by_cases hrs : rs = []
    · subst hrs
      simp [hr]
    · simp only [List.foldl_cons, hr]
      rw [ih (max acc M) hrs (fun x hx => hall x (List.mem_cons_of_mem r hx))]
      rw [max_assoc, max_self]

theorem maxCols_rect (g : Grid) (M : Nat) (hne : g ≠ [])
    (hrect : ∀ r ∈ g, r.length = M) : maxCols g = M := by
  unfold maxCols
  rw [foldl_max_const M g 0 hne hrect]
  simp

theorem colNamesFor_length (g : Grid) : (colNamesFor g).length = maxCols g := by
  simp [colNamesFor]

theorem get_column_letter_pos (i : Nat) :
    get_column_letter (Int.ofNat (i + 1)) = colCore (i + 1) := rfl

theorem colNamesFor_nodup (g : Grid) : (colNamesFor g).Nodup := by
  unfold colNamesFor
  refine List.Nodup.map ?_ (List.nodup_range _)
  intro a b hab
  simp only at hab
  rw [get_column_letter_pos, get_column_letter_pos] at hab
  have := colCore_injective hab
  omega

theorem colNamesFor_ne_id (g : Grid) : ∀ c ∈ colNamesFor g, c ≠ "id" := by
  intro c hc
  rcases List.mem_map.mp hc with ⟨i, _, rfl⟩
  rw [get_column_letter_pos]
  exact colCore_ne_id (i + 1)

theorem map_getD_lookup (ns : List String) (ws : List (Option String))
    (hnod : ns.Nodup) (hlen : ws.length = ns.length) :
    ns.map (fun c => (lookupCol (ns.zip ws) c).getD none) = ws := by
  induction ns generalizing ws with
  | nil =>
    cases ws with
    | nil => rfl
    | cons w ws => simp at hlen
  | cons n ns ih =>
    cases ws with
    | nil => simp at hlen
    | cons w ws =>
      simp only [List.zip_cons_cons, List.map_cons]
      have hn : n ∉ ns := (List.nodup_cons.mp hnod).1
      have hhead : (lookupCol ((n, w) :: ns.zip ws) n).getD none = w := by
        simp [lookupCol]
      have htail : ns.map (fun c => (lookupCol ((n, w) :: ns.zip ws) c).getD none) =
          ns.map (fun c => (lookupCol (ns.zip ws) c).getD none) := by
        apply List.map_congr_left
        intro c hc
        have hne : (n == c) = false := by
          simp only [beq_eq_false_iff_ne, ne_eq]
          exact fun h => hn (h ▸ hc)
        simp [lookupCol, List.find?_cons, hne]
      rw [hhead, htail, ih ws (List.nodup_cons.mp hnod).2 (by simpa using hlen)]

theorem rowParams_rect (cn : List String) (row : List Cell)
    (hlen : row.length = cn.length) :
    rowParams cn row = cn.zip (row.map toNull) := by
  unfold rowParams padRow
  rw [hlen, Nat.sub_self]
  simp [List.zip_map_right, Prod.map]

theorem upsertRow_insert_vals (cn : List String) (row : List Cell) (t : Table)
    (hc : t.cols = cn) (hnod : cn.Nodup) (hlen : row.length = cn.length)
    (rid : Int) (hany : t.rows.any (fun r => r.1 == rid) = false) :
    upsertRow t rid (rowParams cn row) =
      { t with rows := t.rows ++ [(rid, row.map toNull)] } := by
  have hv : t.cols.map (fun c => (lookupCol (rowParams cn row) c).getD none) =
      row.map toNull := by
    rw [hc, rowParams_rect cn row hlen]
    exact map_getD_lookup cn (row.map toNull) hnod (by simpa using hlen)
  unfold upsertRow
  rw [hany]
  rw [if_neg Bool.false_ne_true]
  rw [hv]

theorem upsertLoop_fresh (cn : List String) (hnod : cn.Nodup) :
    ∀ (g : Grid), (∀ r ∈ g, r.length = cn.length) →
    ∀ (i : Nat) (t : Table), t.cols = cn → (∀ p ∈ t.rows, p.1 ≤ (i : Int)) →
    upsertLoop cn t i g = { t with rows := t.rows ++ numberRows i g } := by
  intro g
  induction g with
  | nil =>
    intro _ i t hc hb
    simp [upsertLoop, numberRows]
  | cons row rest ih =>
    intro hrect i t hc hb
    have hlen : row.length = cn.length := hrect row (List.mem_cons_self _ _)
    have hany : t.rows.any (fun r => r.1 == ((i : Int) + 1)) = false := by
      rw [List.any_eq_false]
      intro p hp
      have hle := hb p hp
      simp only [beq_iff_eq]
      omega
    have hb2 : ∀ p ∈ (t.rows ++ [(((i : Int) + 1), row.map toNull)]),
        p.1 ≤ ((i + 1 : Nat) : Int) := by
      intro p hp
      rcases List.mem_append.mp hp with h1 | h2
      · have := hb p h1
        push_cast
        omega
      · have : p = (((i : Int) + 1), row.map toNull) := by simpa using h2
        rw [this]
        push_cast
        omega
    show upsertLoop cn (upsertRow t ((i : Int) + 1) (rowParams cn row)) (i + 1) rest = _
    rw [upsertRow_insert_vals cn row t hc hnod hlen _ hany]
    rw [ih (fun r hr => hrect r (List.mem_cons_of_mem _ hr)) (i + 1)
      { t with rows := t.rows ++ [(((i : Int) + 1), row.map toNull)] } hc hb2]
    simp [numberRows, List.append_assoc]

theorem foldCase_upper (r : Nat) (h : r < 26) :
    (foldCase (Char.ofNat (65 + r))).toNat % 32 = r + 1 := by
  interval_cases r <;> decide

theorem unlabelFold_colCore (n : Nat) :
    unlabelFold ((colCore n).data.map foldCase) = n := by
  induction n using Nat.strong_induction_on with
  | _ n ih =>
    match n with
    | 0 => rfl
    | Nat.succ m =>
      have hdiv : m / 26 < m + 1 := Nat.lt_succ_of_le (Nat.div_le_self m 26)
      have hrec := ih (m / 26) hdiv
      unfold unlabelFold at hrec ⊢
      rw [colCore_succ]
      have hdata : (colCore (m / 26) ++
          String.singleton (Char.ofNat (65 + m % 26))).data =
          (colCore (m / 26)).data ++ [Char.ofNat (65 + m % 26)] := rfl
      rw [hdata, List.map_append, List.foldl_append]
      simp only [List.map_cons, List.map_nil, List.foldl_cons, List.foldl_nil]
      rw [hrec, foldCase_upper (m % 26) (Nat.mod_lt m (by decide))]
      omega

theorem sameCol_colCore (a b : Nat)
    (h : sameCol (colCore a) (colCore b) = true) : a = b := by
  have hl : (colCore a).data.map foldCase = (colCore b).data.map foldCase := by
    simpa [sameCol] using h
  have ha := unlabelFold_colCore a
  rw [hl, unlabelFold_colCore b] at ha
  omega

theorem sameCol_id_colCore (n : Nat)
    (h : sameCol "id" (colCore n) = true) : n = 238 := by
  have hl : ("id" : String).data.map foldCase = (colCore n).data.map foldCase := by
    simpa [sameCol] using h
  have h2 := unlabelFold_colCore n
  rw [← hl] at h2
  have h3 : unlabelFold (("id" : String).data.map foldCase) = 238 := by decide
  omega

theorem addColLoop_ok : ∀ (todo cur : List String),
    (∀ c ∈ todo, ∀ d ∈ cur, sameCol d c = false) →
    todo.Pairwise (fun a b => sameCol a b = false) →
    addColLoop cur todo = (todo, none) := by
  intro todo
  induction todo with
  | nil => intro cur _ _; rfl
  | cons c rest ih =>
    intro cur h1 h2
    have hany : cur.any (fun d => sameCol d c) = false := by
      rw [List.any_eq_false]
      intro d hd
      simp [h1 c (List.mem_cons_self _ _) d hd]
    have h1a : ∀ x ∈ rest, ∀ d ∈ cur ++ [c], sameCol d x = false := by
      intro x hx d hd
      rcases List.mem_append.mp hd with hcur | hc
      · exact h1 x (List.mem_cons_of_mem _ hx) d hcur
      · have hdc : d = c := by simpa using hc
        subst hdc
        exact (List.pairwise_cons.mp h2).1 x hx
    have hrec := ih (cur ++ [c]) h1a (List.pairwise_cons.mp h2).2
    unfold addColLoop
    rw [hany, if_neg Bool.false_ne_true, hrec]

theorem colNamesFor_pairwise (g : Grid) :
    (colNamesFor g).Pairwise (fun a b => sameCol a b = false) := by
  unfold colNamesFor
  rw [List.pairwise_map]
  apply List.Pairwise.imp ?_ (List.pairwise_lt_range _)
  intro a b hab
  rw [get_column_letter_pos, get_column_letter_pos]
  cases hsc : sameCol (colCore (a + 1)) (colCore (b + 1)) with
  | false => rfl
  | true =>
    have := sameCol_colCore _ _ hsc
    omega

theorem colNamesFor_id_ci (g : Grid) (hMlt : maxCols g < 238) :
    ∀ c ∈ colNamesFor g, ∀ d ∈ (["id"] : List String), sameCol d c = false := by
  intro c hc d hd
  have hdid : d = "id" := by simpa using hd
  subst hdid
  rcases List.mem_map.mp hc with ⟨i, hi, rfl⟩
  rw [get_column_letter_pos]
  cases hsc : sameCol "id" (colCore (i + 1)) with
  | false => rfl
  | true =>
    have h238 := sameCol_id_colCore (i + 1) hsc
    have hiR : i < maxCols g := List.mem_range.mp hi
    omega

theorem raw_fresh (g : Grid) (M : Nat) (hM : 0 < M) (hMlt : M < 238) (hne : g ≠ [])
    (hrect : ∀ r ∈ g, r.length = M) :
    sync_to_mysql_raw allOk none (colNamesFor g) g = RawRes.ok (freshTable g) := by
  have hmax : maxCols g = M := maxCols_rect g M hne hrect
  have hlen : (colNamesFor g).length = M := by rw [colNamesFor_length, hmax]
  have hcn_ne : colNamesFor g ≠ [] := by
    intro h0
    rw [h0] at hlen
    simp at hlen
    omega
  have h1 : sync_to_mysql_raw allOk none (colNamesFor g) g =
      rawSteps allOk ⟨false, [], []⟩ (colNamesFor g) g := rfl
  rw [h1, rawSteps_allOk]
  have hnc : newColsFor ([] : List String) (colNamesFor g) = colNamesFor g := by
    unfold newColsFor
    apply List.filter_eq_self.mpr
    intro c hc
    have hcid := colNamesFor_ne_id g c hc
    simp only [List.contains_cons, List.contains_nil, Bool.or_false,
      Bool.not_eq_true', beq_eq_false_iff_ne, ne_eq]
    exact hcid
  have hloop : addColLoop ("id" :: (⟨false, [], []⟩ : Table).cols)
      (newColsFor (⟨false, [], []⟩ : Table).cols (colNamesFor g)) =
      (colNamesFor g, none) := by
    show addColLoop ["id"] (newColsFor ([] : List String) (colNamesFor g)) = _
    rw [hnc]
    exact addColLoop_ok (colNamesFor g) ["id"]
      (colNamesFor_id_ci g (by omega)) (colNamesFor_pairwise g)
  simp only [hloop]
  rw [if_neg hne, if_neg hcn_ne]
  have hbase : delRows (addColsL { (⟨false, [], []⟩ : Table) with autoInc := false }
      (colNamesFor g)) (g.length : Int) = ⟨false, colNamesFor g, []⟩ := by
    show delRows (addColsL (⟨false, [], []⟩ : Table) (colNamesFor g)) (g.length : Int) = _
    unfold addColsL delRows
    simp
  rw [hbase]
  rw [upsertLoop_fresh (colNamesFor g) (colNamesFor_nodup g) g
    (fun r hr => by rw [hrect r hr, hlen]) 0 ⟨false, colNamesFor g, []⟩ rfl
    (by intro p hp; simp at hp)]
  simp [freshTable]

theorem numberRows_id_lt (g : Grid) : ∀ i : Nat, ∀ p ∈ numberRows i g,
    (i : Int) < p.1 := by
  induction g with
  | nil =>
    intro i p hp
    simp [numberRows] at hp
  | cons row rest ih =>
    intro i p hp
    simp only [numberRows, List.mem_cons] at hp
    rcases hp with rfl | hp
    · simp
    · have := ih (i + 1) p hp
      push_cast at this ⊢
      omega

theorem numberRows_pairwise (g : Grid) : ∀ i : Nat,
    (numberRows i g).Pairwise (fun p q => p.1 ≤ q.1) := by
  induction g with
  | nil => intro i; simp [numberRows]
  | cons row rest ih =>
    intro i
    simp only [numberRows]
    refine List.Pairwise.cons ?_ (ih (i + 1))
    intro q hq
    have := numberRows_id_lt rest (i + 1) q hq
    push_cast at this ⊢
    omega

theorem insertById_sorted (p : Int × List (Option String))
    (l : List (Int × List (Option String)))
    (h : ∀ q ∈ l, p.1 ≤ q.1) : insertById p l = p :: l := by
  cases l with
  | nil => rfl
  | cons q qs =>
    unfold insertById
    rw [if_pos (h q (List.mem_cons_self _ _))]

theorem sortById_eq_self (l : List (Int × List (Option String)))
    (h : l.Pairwise (fun p q => p.1 ≤ q.1)) : sortById l = l := by
  induction l with
  | nil => rfl
  | cons p ps ih =>
    have hstep : sortById (p :: ps) = insertById p (sortById ps) := rfl
    rw [hstep, ih (List.pairwise_cons.mp h).2]
    exact insertById_sorted p ps (List.pairwise_cons.mp h).1

theorem toNull_getD (s : Cell) : (toNull s).getD "" = s := by
  unfold toNull
  by_cases h : s = "" <;> simp [h]

theorem toNull_ne_some_empty (s : Cell) : toNull s ≠ some "" := by
  unfold toNull
  by_cases h : s = "" <;> simp [h]

theorem numberRows_map_back (g : Grid) : ∀ i : Nat,
    (numberRows i g).map (fun r => r.2.map (fun v => v.getD "")) = g := by
  induction g with
  | nil => intro i; rfl
  | cons row rest ih =>
    intro i
    simp only [numberRows, List.map_cons]
    rw [ih (i + 1)]
    congr 1
    rw [List.map_map]
    exact (List.map_congr_left (fun s _ => toNull_getD s)).trans (List.map_id _)

theorem tableToGrid_fresh (g : Grid) : tableToGrid (freshTable g) = g := by
  unfold tableToGrid freshTable
  rw [sortById_eq_self _ (numberRows_pairwise g 0)]
  exact numberRows_map_back g 0

theorem numberRows_length (g : Grid) : ∀ i, (numberRows i g).length = g.length := by
  induction g with
  | nil => intro i; rfl
  | cons row rest ih =>
    intro i
    simp [numberRows, ih (i + 1)]

theorem numberRows_no_empty (g : Grid) : ∀ i, ∀ p ∈ numberRows i g,
    ∀ v ∈ p.2, v ≠ some "" := by
  induction g with
  | nil =>
    intro i p hp
    simp [numberRows] at hp
  | cons row rest ih =>
    intro i p hp v hv
    simp only [numberRows, List.mem_cons] at hp
    rcases hp with rfl | hp
    · rcases List.mem_map.mp hv with ⟨s, _, rfl⟩
      exact toNull_ne_some_empty s
    · exact ih (i + 1) p hp v hv

set_option maxRecDepth 100000 in
/-- C3 counterexample: on the concrete rectangular grid of one row and
238 columns the sheet-to-table reconciliation itself fails, so no round
trip happens at all: column label 238 is the string ID, the
case-sensitive membership test of the Python add-column loop does not
find it among the existing columns, and the executed ALTER TABLE ADD
COLUMN collides case-insensitively with the identity column id, which
MySQL rejects as a duplicate column.  This refutes the claim as stated
for every rectangular grid. -/
theorem C3_counterexample :
    get_column_letter 238 = "ID" ∧
    (∀ r ∈ g238, r.length = 238) ∧ g238.length = 1 ∧
    (sync_to_mysql_raw allOk none (colNamesFor g238) g238).isErr = true := by
  refine ⟨by decide, by decide, by decide, ?_⟩
  decide

/-- C3 (amended): round trip for grids of at most 237 columns, the
range in which no column label collides case-insensitively with the
identity column (label 238 is ID).  Reconciling a fresh (absent) table
from any non-empty rectangular grid of N rows and M columns,
0 < M < 238, succeeds and produces exactly the table freshTable g;
reconciling a sheet from that table yields the original grid again (so
the dimensions and every cell value survive, the empty string
included); the table holds one row per grid row; and no cell is ever
stored as the empty string: empty cells are stored as NULL and
converted back to empty strings on the way out. -/
theorem C3_roundtrip_amended (g : Grid) (M : Nat) (hM : 0 < M) (hMlt : M < 238)
    (hne : g ≠ []) (hrect : ∀ r ∈ g, r.length = M) :
    sync_to_mysql_raw allOk none (colNamesFor g) g = RawRes.ok (freshTable g) ∧
    tableToGrid (freshTable g) = g ∧
    (freshTable g).rows.length = g.length ∧
    (∀ p ∈ (freshTable g).rows, ∀ v ∈ p.2, v ≠ some "") :=
  ⟨raw_fresh g M hM hMlt hne hrect, tableToGrid_fresh g,
    numberRows_length g 0, numberRows_no_empty g 0⟩

/-- Witness for C3 at a concrete two-by-two grid with empty cells. -/
theorem C3_roundtrip_amended_witness :
    gEx ≠ [] ∧ tableToGrid (freshTable gEx) = gEx :=
  ⟨by decide,
    (C3_roundtrip_amended gEx 2 (by decide) (by decide) (by decide) (by decide)).2.1⟩

end DataSync
